import Mathlib

/-!
# Verification of the expression-AST layer (`lib/AST/Expr.cpp`)

A shallow embedding of the expression-AST representation layer of the
compiler front end: the node shapes, the overload-collapse constructors,
the structural queries (semantics-providing form, implicitness, source
ranges), integer-literal value derivation, and closure `$N` variable
generation.

Fatal assertion failures and null-pointer dereferences (which abort the
process in the C++ code) are modelled as `Except Fatal` / `Option`
results: such an outcome is a process abort, never a value handed back
to the caller.
-/

set_option maxHeartbeats 1000000

/-- A source location handle: either the invalid (null) location or an
opaque valid location identified by a number. -/
inductive SourceLoc where
  | invalid
  | valid (n : Nat)
deriving DecidableEq, Repr

/-- `SourceLoc::isValid()`: a location is valid unless it is the null
location. -/
def SourceLoc.isValid : SourceLoc → Bool
  | .invalid => false
  | .valid _ => true

/-- A source range: a pair of start and end location handles. -/
structure SourceRange where
  Start : SourceLoc
  End : SourceLoc
deriving DecidableEq, Repr

/-- Type handles. `builtinInteger w` is the builtin integer type of bit
width `w`; `metaType` is a metatype; `unstructuredDependent` is the
dependent placeholder type used while overload sets are unresolved;
`other n` stands for any further concrete type. A null `Type()` handle
is modelled as `none : Option Ty`. -/
inductive Ty where
  | builtinInteger (bitWidth : Nat)
  | metaType
  | unstructuredDependent
  | other (n : Nat)
deriving DecidableEq, Repr

/-- `Type::is<MetaTypeType>()` on a non-null type handle. -/
def Ty.isMetaTypeType : Ty → Bool
  | .metaType => true
  | _ => false

/-- The dynamic kind of a value declaration: a function (`FuncDecl`), a
variable (`VarDecl`), or some other kind of value declaration. -/
inductive DeclKind where
  | func
  | var
  | other
deriving DecidableEq, Repr

/-- A value declaration, seen through the narrow interface this layer
uses: its name, its dynamic kind, its type-of-reference (possibly null),
whether it is an instance member, and (for subscript declarations) its
element type (possibly null). -/
structure ValueDecl where
  name : String
  kind : DeclKind
  typeOfReference : Option Ty
  isInstanceMember : Bool
  elementType : Option Ty
deriving DecidableEq, Repr

/-- The expression node hierarchy, one constructor per C++ node class
that the verified operations touch. Each node carries its (possibly
null) result type as its last field. Tuple elements may be null
(a tuple-element default-value marker), hence `List (Option Expr)`. -/
inductive Expr where
  | ErrorExpr (loc : SourceLoc) (ty : Option Ty)
  | IntegerLiteralExpr (text : String) (loc : SourceLoc) (ty : Option Ty)
  | DeclRefExpr (d : ValueDecl) (loc : SourceLoc) (ty : Option Ty)
  | OverloadedDeclRefExpr (decls : List ValueDecl) (loc : SourceLoc) (ty : Option Ty)
  | OverloadedMemberRefExpr (base : Expr) (dotLoc : SourceLoc) (decls : List ValueDecl)
      (memberLoc : SourceLoc) (ty : Option Ty)
  | OverloadedSubscriptExpr (base : Expr) (decls : List ValueDecl) (lBracketLoc : SourceLoc)
      (index : Expr) (rBracketLoc : SourceLoc) (ty : Option Ty)
  | MemberRefExpr (base : Expr) (dotLoc : SourceLoc) (d : ValueDecl) (nameLoc : SourceLoc)
      (ty : Option Ty)
  | DotSyntaxCallExpr (fn : Expr) (dotLoc : SourceLoc) (base : Expr) (ty : Option Ty)
  | DotSyntaxBaseIgnoredExpr (lhs : Expr) (dotLoc : SourceLoc) (rhs : Expr) (ty : Option Ty)
  | SubscriptExpr (base : Expr) (lBracketLoc : SourceLoc) (index : Expr)
      (rBracketLoc : SourceLoc) (d : Option ValueDecl) (ty : Option Ty)
  | ParenExpr (lParenLoc : SourceLoc) (sub : Expr) (rParenLoc : SourceLoc) (ty : Option Ty)
  | TupleExpr (lParenLoc : SourceLoc) (elements : List (Option Expr)) (rParenLoc : SourceLoc)
      (ty : Option Ty)
  | LoadExpr (sub : Expr) (ty : Option Ty)
  | MaterializeExpr (sub : Expr) (ty : Option Ty)
  | RequalifyExpr (sub : Expr) (ty : Option Ty)
  | AddressOfExpr (sub : Expr) (ty : Option Ty)
  | TupleShuffleExpr (sub : Expr) (mapping : List Int) (ty : Option Ty)
  | ScalarToTupleExpr (sub : Expr) (ty : Option Ty)
  | ParameterRenameExpr (sub : Expr) (ty : Option Ty)
  | LookThroughOneofExpr (sub : Expr) (ty : Option Ty)

/-- `Expr::getType()`: the node's stored (possibly null) result type. -/
def Expr.getType : Expr → Option Ty
  | .ErrorExpr _ ty => ty
  | .IntegerLiteralExpr _ _ ty => ty
  | .DeclRefExpr _ _ ty => ty
  | .OverloadedDeclRefExpr _ _ ty => ty
  | .OverloadedMemberRefExpr _ _ _ _ ty => ty
  | .OverloadedSubscriptExpr _ _ _ _ _ ty => ty
  | .MemberRefExpr _ _ _ _ ty => ty
  | .DotSyntaxCallExpr _ _ _ ty => ty
  | .DotSyntaxBaseIgnoredExpr _ _ _ ty => ty
  | .SubscriptExpr _ _ _ _ _ ty => ty
  | .ParenExpr _ _ _ ty => ty
  | .TupleExpr _ _ _ ty => ty
  | .LoadExpr _ ty => ty
  | .MaterializeExpr _ ty => ty
  | .RequalifyExpr _ ty => ty
  | .AddressOfExpr _ ty => ty
  | .TupleShuffleExpr _ _ ty => ty
  | .ScalarToTupleExpr _ ty => ty
  | .ParameterRenameExpr _ ty => ty
  | .LookThroughOneofExpr _ ty => ty

/-- `isa<ParenExpr>`: is the node a parenthesization node? -/
def Expr.isParenExpr : Expr → Bool
  | .ParenExpr .. => true
  | _ => false

/-- Modelled from the spec: the overload-set-shaped node kinds are the
three transient multi-candidate reference nodes (name, member,
subscript); the class hierarchy placing them is declared in the header,
which is absent from the sample. -/
def Expr.isOverloadSetShaped : Expr → Bool
  | .OverloadedDeclRefExpr .. => true
  | .OverloadedMemberRefExpr .. => true
  | .OverloadedSubscriptExpr .. => true
  | _ => false

/-- `Expr::getSemanticsProvidingExpr()`: recursively strip
parenthesization nodes and return the first non-paren node. -/
def Expr.getSemanticsProvidingExpr : Expr → Expr
  | .ParenExpr _ sub _ _ => sub.getSemanticsProvidingExpr
  | e => e

/-- `Expr::getValueProvidingExpr()`: for now, totally equivalent to
`getSemanticsProvidingExpr` (tuple literal projection is a noted future
extension, not implemented). -/
def Expr.getValueProvidingExpr (e : Expr) : Expr :=
  e.getSemanticsProvidingExpr

/-- Modelled from the spec: membership in the implicit-conversion
wrapper family (load, materialize, requalify, address-of, tuple-shuffle,
scalar-to-tuple, parameter-rename, look-through); the class hierarchy
declaring which classes derive from `ImplicitConversionExpr` lives in
the header, which is absent from the sample. -/
def Expr.isImplicitConversionExpr : Expr → Bool
  | .LoadExpr .. => true
  | .MaterializeExpr .. => true
  | .RequalifyExpr .. => true
  | .AddressOfExpr .. => true
  | .TupleShuffleExpr .. => true
  | .ScalarToTupleExpr .. => true
  | .ParameterRenameExpr .. => true
  | .LookThroughOneofExpr .. => true
  | _ => false

/-- `ImplicitConversionExpr::getSubExpr()`: the wrapped child of an
implicit-conversion wrapper node, `none` for any other kind. -/
def ImplicitConversionExpr.getSubExpr : Expr → Option Expr
  | .LoadExpr sub _ => some sub
  | .MaterializeExpr sub _ => some sub
  | .RequalifyExpr sub _ => some sub
  | .AddressOfExpr sub _ => some sub
  | .TupleShuffleExpr sub _ _ => some sub
  | .ScalarToTupleExpr sub _ => some sub
  | .ParameterRenameExpr sub _ => some sub
  | .LookThroughOneofExpr sub _ => some sub
  | _ => none

/-- `Expr::isImplicit()`: a `DeclRefExpr` is implicit iff its location
is invalid; an implicit-conversion wrapper node is implicit iff its
wrapped child is; every other kind is explicit. -/
def Expr.isImplicit : Expr → Bool
  | .DeclRefExpr _ loc _ => !loc.isValid
  | .LoadExpr sub _ => sub.isImplicit
  | .MaterializeExpr sub _ => sub.isImplicit
  | .RequalifyExpr sub _ => sub.isImplicit
  | .AddressOfExpr sub _ => sub.isImplicit
  | .TupleShuffleExpr sub _ _ => sub.isImplicit
  | .ScalarToTupleExpr sub _ => sub.isImplicit
  | .ParameterRenameExpr sub _ => sub.isImplicit
  | .LookThroughOneofExpr sub _ => sub.isImplicit
  | _ => false

/-- A fatal process abort: a failed assertion or a null-pointer
dereference. Such an outcome halts compilation; it is never a value
returned to the caller. -/
inductive Fatal where
  | assertEmptyDecls
  | nullTypeDeref
  | badDeclCast
deriving DecidableEq, Repr

/-- `MemberRefExpr::MemberRefExpr` (from the source): the node's result
type is the referenced variable declaration's type of reference. -/
def mkMemberRefExpr (Base : Expr) (DotLoc : SourceLoc) (Value : ValueDecl)
    (NameLoc : SourceLoc) : Expr :=
  .MemberRefExpr Base DotLoc Value NameLoc Value.typeOfReference

/-- Modelled from the spec: the `DotSyntaxCallExpr` constructor is
declared in the header, absent from the sample; per the spec the
single-candidate member collapse yields a curried dot-syntax-call node
whose result type equals the candidate's reference type, i.e. the type
of the resolved function reference `Fn`. -/
def mkDotSyntaxCallExpr (Fn : Expr) (DotLoc : SourceLoc) (Base : Expr) : Expr :=
  .DotSyntaxCallExpr Fn DotLoc Base Fn.getType

/-- Modelled from the spec: the `DotSyntaxBaseIgnoredExpr` constructor
is declared in the header, absent from the sample; per the spec the
receiver is evaluated for side effects only and the result is the
resolved reference, so the node's type is the right-hand side's type. -/
def mkDotSyntaxBaseIgnoredExpr (LHS : Expr) (DotLoc : SourceLoc) (RHS : Expr) : Expr :=
  .DotSyntaxBaseIgnoredExpr LHS DotLoc RHS RHS.getType

/-- `SubscriptExpr::SubscriptExpr` (from the source): the node's result
type is the subscript declaration's element type when a declaration is
supplied, and null otherwise. The declaration parameter's null default
argument is declared in the header; the null check in the constructor
body shows the default is the null declaration. -/
def mkSubscriptExpr (Base : Expr) (LBracketLoc : SourceLoc) (Index : Expr)
    (RBracketLoc : SourceLoc) (D : Option ValueDecl) : Expr :=
  .SubscriptExpr Base LBracketLoc Index RBracketLoc D (D.bind (fun d => d.elementType))

/-- `OverloadedDeclRefExpr::createWithCopy`: an empty candidate list is
a fatal assertion; a single candidate yields a `DeclRefExpr` typed with
the candidate's type of reference; otherwise an `OverloadedDeclRefExpr`
holding the (arena-copied) candidate list, typed with the unstructured
dependent placeholder. -/
def OverloadedDeclRefExpr.createWithCopy :
    List ValueDecl → SourceLoc → Except Fatal Expr
  | [], _ => .error .assertEmptyDecls
  | [D], Loc => .ok (.DeclRefExpr D Loc D.typeOfReference)
  | Decls, Loc => .ok (.OverloadedDeclRefExpr Decls Loc (some .unstructuredDependent))

/-- `OverloadedMemberRefExpr::createWithCopy`: an empty candidate list
is a fatal assertion. With a single candidate, build the resolved
reference `Fn`; if the candidate is an instance member and the base's
type (dereferenced: a null base type is a fatal crash here) is not a
metatype, produce a `DotSyntaxCallExpr` for a function candidate or a
`MemberRefExpr` for a variable candidate (any other kind fails the
`cast<VarDecl>`); otherwise produce a `DotSyntaxBaseIgnoredExpr`. With
several candidates, produce an `OverloadedMemberRefExpr` typed with the
unstructured dependent placeholder. -/
def OverloadedMemberRefExpr.createWithCopy (Base : Expr) (DotLoc : SourceLoc) :
    List ValueDecl → SourceLoc → Except Fatal Expr
  | [], _ => .error .assertEmptyDecls
  | [D], MemberLoc =>
    let Fn : Expr := .DeclRefExpr D MemberLoc D.typeOfReference
    if D.isInstanceMember then
      match Base.getType with
      | none => .error .nullTypeDeref
      | some baseTy =>
        if baseTy.isMetaTypeType then
          .ok (mkDotSyntaxBaseIgnoredExpr Base DotLoc Fn)
        else
          match D.kind with
          | .func => .ok (mkDotSyntaxCallExpr Fn DotLoc Base)
          | .var => .ok (mkMemberRefExpr Base DotLoc D MemberLoc)
          | .other => .error .badDeclCast
    else
      .ok (mkDotSyntaxBaseIgnoredExpr Base DotLoc Fn)
  | Decls, MemberLoc =>
    .ok (.OverloadedMemberRefExpr Base DotLoc Decls MemberLoc (some .unstructuredDependent))

/-- `OverloadedSubscriptExpr::createWithCopy`: an empty candidate list
is a fatal assertion; a single candidate yields a `SubscriptExpr` built
without a declaration (the constructor's declaration parameter is left
at its null default); otherwise an `OverloadedSubscriptExpr` typed with
the unstructured dependent placeholder. -/
def OverloadedSubscriptExpr.createWithCopy (Base : Expr) :
    List ValueDecl → SourceLoc → Expr → SourceLoc → Except Fatal Expr
  | [], _, _, _ => .error .assertEmptyDecls
  | [_], LBracketLoc, Index, RBracketLoc =>
    .ok (mkSubscriptExpr Base LBracketLoc Index RBracketLoc none)
  | Decls, LBracketLoc, Index, RBracketLoc =>
    .ok (.OverloadedSubscriptExpr Base Decls LBracketLoc Index RBracketLoc
          (some .unstructuredDependent))

/-- `Expr::getSourceRange()`, kind-dispatched. The `TupleExpr` case is
from the source: valid left paren requires (assertion) a valid right
paren and spans the parens; with the parens absent the tuple must
(assertion) have exactly two elements and spans from the first element's
start to the second's end (a null element is a fatal dereference).
Modelled from the spec: the remaining kinds' range computations are
declared in the header, absent from the sample; leaves span their own
location, parens span their delimiters, compound nodes span from their
first child's start to their last child's or trailing token's end, and
conversion wrappers take their wrapped child's range. -/
def Expr.getSourceRange : Expr → Option SourceRange
  | .ErrorExpr loc _ => some ⟨loc, loc⟩
  | .IntegerLiteralExpr _ loc _ => some ⟨loc, loc⟩
  | .DeclRefExpr _ loc _ => some ⟨loc, loc⟩
  | .OverloadedDeclRefExpr _ loc _ => some ⟨loc, loc⟩
  | .OverloadedMemberRefExpr base _ _ memberLoc _ =>
    (base.getSourceRange).map (fun r => ⟨r.Start, memberLoc⟩)
  | .OverloadedSubscriptExpr base _ _ _ rBracketLoc _ =>
    (base.getSourceRange).map (fun r => ⟨r.Start, rBracketLoc⟩)
  | .MemberRefExpr base _ _ nameLoc _ =>
    (base.getSourceRange).map (fun r => ⟨r.Start, nameLoc⟩)
  | .DotSyntaxCallExpr fn _ base _ =>
    match fn.getSourceRange, base.getSourceRange with
    | some rf, some rb => some ⟨rf.Start, rb.End⟩
    | _, _ => none
  | .DotSyntaxBaseIgnoredExpr lhs _ rhs _ =>
    match lhs.getSourceRange, rhs.getSourceRange with
    | some rl, some rr => some ⟨rl.Start, rr.End⟩
    | _, _ => none
  | .SubscriptExpr base _ _ rBracketLoc _ _ =>
    (base.getSourceRange).map (fun r => ⟨r.Start, rBracketLoc⟩)
  | .ParenExpr lParenLoc _ rParenLoc _ => some ⟨lParenLoc, rParenLoc⟩
  | .TupleExpr lParenLoc elements rParenLoc _ =>
    if lParenLoc.isValid then
      if rParenLoc.isValid then some ⟨lParenLoc, rParenLoc⟩
      else none
    else
      match elements with
      | [some a, some b] =>
        match a.getSourceRange, b.getSourceRange with
        | some ra, some rb => some ⟨ra.Start, rb.End⟩
        | _, _ => none
      | _ => none
  | .LoadExpr sub _ => sub.getSourceRange
  | .MaterializeExpr sub _ => sub.getSourceRange
  | .RequalifyExpr sub _ => sub.getSourceRange
  | .AddressOfExpr sub _ => sub.getSourceRange
  | .TupleShuffleExpr sub _ _ => sub.getSourceRange
  | .ScalarToTupleExpr sub _ => sub.getSourceRange
  | .ParameterRenameExpr sub _ => sub.getSourceRange
  | .LookThroughOneofExpr sub _ => sub.getSourceRange

/-- Modelled from the spec: radix inference from the spelling, as
performed by the external string library's auto-sense radix helper that
`getAsInteger(0, Value)` invokes: a `0x` spelling is hexadecimal (the
marker consumed), `0b` is binary (the marker consumed), any other
leading `0` is octal, and everything else is decimal. -/
def GetAutoSenseRadix : List Char → Nat × List Char
  | '0' :: 'x' :: rest => (16, rest)
  | '0' :: 'b' :: rest => (2, rest)
  | '0' :: rest => (8, '0' :: rest)
  | s => (10, s)

/-- Modelled from the spec: the numeric value of one spelling character,
as used by the external string library: decimal digits, then lowercase
and uppercase letters valued from ten upward; anything else is not a
digit. -/
def charDigitValue (c : Char) : Option Nat :=
  if '0' ≤ c ∧ c ≤ '9' then some (c.toNat - '0'.toNat)
  else if 'a' ≤ c ∧ c ≤ 'z' then some (c.toNat - 'a'.toNat + 10)
  else if 'A' ≤ c ∧ c ≤ 'Z' then some (c.toNat - 'A'.toNat + 10)
  else none

/-- Modelled from the spec: accumulate the digits of a spelling in the
given radix; a character that is not a digit below the radix is a parse
error. -/
def parseDigits (radix : Nat) : List Char → Nat → Option Nat
  | [], acc => some acc
  | c :: rest, acc =>
    match charDigitValue c with
    | some v => if v < radix then parseDigits radix rest (acc * radix + v) else none
    | none => none

/-- Modelled from the spec: `StringRef::getAsInteger(0, Value)` from the
external string library — infer the radix from the spelling, then parse
the remaining digits; an empty digit sequence is a parse error. -/
def getAsInteger (Str : String) : Option Nat :=
  let p := GetAutoSenseRadix Str.toList
  if p.2.isEmpty then none else parseDigits p.1 p.2 0

/-- `IntegerLiteralExpr::getValue()` (from the source): fatal assertion
if the node's type is still null; fatal cast failure if it is not a
builtin integer type; parse the stored spelling with inferred radix
(a parse error is a fatal assertion), then zero-extend or truncate to
the type's bit width, i.e. reduce modulo `2 ^ bitWidth`. -/
def IntegerLiteralExpr.getValue : Expr → Option Nat
  | .IntegerLiteralExpr text _ ty =>
    match ty with
    | none => none
    | some (.builtinInteger bitWidth) =>
      match getAsInteger text with
      | none => none
      | some v => some (v % 2 ^ bitWidth)
    | some _ => none
  | _ => none

/-- The variable declaration generated for a closure's implicit
argument `$idx`: a variable named `$` followed by the decimal rendering
of the index, with no type assigned yet. -/
def mkClosureVarDecl (idx : Nat) : ValueDecl :=
  { name := "$" ++ toString idx
    kind := .var
    typeOfReference := none
    isInstanceMember := false
    elementType := none }

/-- `ExplicitClosureExpr::GenerateVarDecls`: while the requested index
is at least the current length, append a fresh variable declaration
named `$` followed by the next index; the final list is the function's
result (the C++ mutates the vector in place). -/
def ExplicitClosureExpr.GenerateVarDecls (NumDecls : Nat) (Decls : List ValueDecl) :
    List ValueDecl :=
  if Decls.length ≤ NumDecls then
    ExplicitClosureExpr.GenerateVarDecls NumDecls (Decls ++ [mkClosureVarDecl Decls.length])
  else
    Decls
termination_by NumDecls + 1 - Decls.length
decreasing_by simp [List.length_append]; omega

/-- A chain of parenthesization wrappers, outermost first, each with its
own delimiter locations and result type, wrapped around an inner node. -/
def parenWraps : List (SourceLoc × SourceLoc × Option Ty) → Expr → Expr
  | [], e => e
  | (lp, rp, ty) :: rest, e => .ParenExpr lp (parenWraps rest e) rp ty

/-- The result of stripping transparent wrappers is never itself a
parenthesization node. -/
theorem getSemanticsProvidingExpr_not_paren :
    ∀ e : Expr, (e.getSemanticsProvidingExpr).isParenExpr = false
  | .ErrorExpr .. => rfl
  | .IntegerLiteralExpr .. => rfl
  | .DeclRefExpr .. => rfl
  | .OverloadedDeclRefExpr .. => rfl
  | .OverloadedMemberRefExpr .. => rfl
  | .OverloadedSubscriptExpr .. => rfl
  | .MemberRefExpr .. => rfl
  | .DotSyntaxCallExpr .. => rfl
  | .DotSyntaxBaseIgnoredExpr .. => rfl
  | .SubscriptExpr .. => rfl
  | .ParenExpr _ sub _ _ => by
    simpa [Expr.getSemanticsProvidingExpr] using
      getSemanticsProvidingExpr_not_paren sub
  | .TupleExpr .. => rfl
  | .LoadExpr .. => rfl
  | .MaterializeExpr .. => rfl
  | .RequalifyExpr .. => rfl
  | .AddressOfExpr .. => rfl
  | .TupleShuffleExpr .. => rfl
  | .ScalarToTupleExpr .. => rfl
  | .ParameterRenameExpr .. => rfl
  | .LookThroughOneofExpr .. => rfl

/-- Stripping transparent wrappers fixes any non-paren node. -/
theorem getSemanticsProvidingExpr_of_not_paren (e : Expr)
    (he : e.isParenExpr = false) : e.getSemanticsProvidingExpr = e := by
  cases e <;> first
    | rfl
    | simp [Expr.isParenExpr] at he

/-- C5: `getSemanticsProvidingExpr` applied to a chain of N
parenthesization nodes (any delimiters and types, N = 0 included)
around a non-paren node returns exactly that node; the query is total
(never null for a non-null input) and idempotent. -/
theorem semantics_providing_strips_paren_chains :
    (∀ (ws : List (SourceLoc × SourceLoc × Option Ty)) (e : Expr),
      e.isParenExpr = false → (parenWraps ws e).getSemanticsProvidingExpr = e) ∧
    (∀ e : Expr,
      e.getSemanticsProvidingExpr.getSemanticsProvidingExpr =
        e.getSemanticsProvidingExpr) := by
  constructor
  · intro ws
    induction ws with
    | nil =>
      intro e he
      cases e <;> first
        | rfl
        | simp [Expr.isParenExpr] at he
    | cons w rest ih =>
      intro e he
      obtain ⟨lp, rp, ty⟩ := w
      simpa [parenWraps, Expr.getSemanticsProvidingExpr] using ih e he
  · intro e
    exact getSemanticsProvidingExpr_of_not_paren _
      (getSemanticsProvidingExpr_not_paren e)

/-- Witness for C5: stripping two parenthesizations around an error
node returns the error node. -/
theorem semantics_providing_strips_paren_chains_witness :
    (parenWraps [(.valid 0, .valid 5, none), (.valid 1, .valid 4, none)]
      (.ErrorExpr (.valid 2) none)).getSemanticsProvidingExpr =
      .ErrorExpr (.valid 2) none :=
  semantics_providing_strips_paren_chains.1 _ _ rfl

/-- C6: the value-providing-form query and the transparent-wrapper
stripping query are extensionally equal. -/
theorem value_providing_eq_semantics_providing :
    ∀ e : Expr, e.getValueProvidingExpr = e.getSemanticsProvidingExpr :=
  fun _ => rfl

/-- C7: a node is implicit iff it is a `DeclRefExpr` with an invalid
location, or an implicit-conversion wrapper whose wrapped child is
itself implicit; every other kind reports `false`. -/
theorem isImplicit_characterization (e : Expr) :
    e.isImplicit = true ↔
      ((∃ d loc ty, e = .DeclRefExpr d loc ty ∧ loc.isValid = false) ∨
       (∃ sub, e.isImplicitConversionExpr = true ∧
         ImplicitConversionExpr.getSubExpr e = some sub ∧ sub.isImplicit = true)) := by
  cases e <;>
    simp [Expr.isImplicit, Expr.isImplicitConversionExpr,
      ImplicitConversionExpr.getSubExpr, and_assoc]

/-- C9: an integer literal with spelling `"42"` and the 32-bit builtin
integer type derives the value 42, and so does the spelling `"0x2A"`
(radix inferred from the spelling). -/
theorem integer_literal_value_42 :
    IntegerLiteralExpr.getValue
      (.IntegerLiteralExpr "42" (.valid 0) (some (.builtinInteger 32))) = some 42 ∧
    IntegerLiteralExpr.getValue
      (.IntegerLiteralExpr "0x2A" (.valid 0) (some (.builtinInteger 32))) = some 42 := by
  constructor <;> rfl

/-- C2: with N ≥ 2 candidates each of the three overload-collapse
constructors returns the corresponding overload-set node holding the
candidate list itself (hence length exactly N, input order preserved),
typed with the unstructured dependent placeholder. -/
theorem overload_collapse_multi_candidate
    (Decls : List ValueDecl) (Base Index : Expr)
    (Loc DotLoc MemberLoc LBracketLoc RBracketLoc : SourceLoc)
    (h : 2 ≤ Decls.length) :
    OverloadedDeclRefExpr.createWithCopy Decls Loc =
      .ok (.OverloadedDeclRefExpr Decls Loc (some .unstructuredDependent)) ∧
    OverloadedMemberRefExpr.createWithCopy Base DotLoc Decls MemberLoc =
      .ok (.OverloadedMemberRefExpr Base DotLoc Decls MemberLoc
            (some .unstructuredDependent)) ∧
    OverloadedSubscriptExpr.createWithCopy Base Decls LBracketLoc Index RBracketLoc =
      .ok (.OverloadedSubscriptExpr Base Decls LBracketLoc Index RBracketLoc
            (some .unstructuredDependent)) := by
  match Decls, h with
  | a :: b :: rest, _ => exact ⟨rfl, rfl, rfl⟩

/-- Witness for C2: a concrete two-candidate list yields the three
overload-set nodes. -/
theorem overload_collapse_multi_candidate_witness :
    OverloadedDeclRefExpr.createWithCopy
      [mkClosureVarDecl 0, mkClosureVarDecl 1] (.valid 3) =
      .ok (.OverloadedDeclRefExpr [mkClosureVarDecl 0, mkClosureVarDecl 1] (.valid 3)
            (some .unstructuredDependent)) :=
  (overload_collapse_multi_candidate [mkClosureVarDecl 0, mkClosureVarDecl 1]
    (.ErrorExpr .invalid none) (.ErrorExpr .invalid none)
    (.valid 3) .invalid .invalid .invalid .invalid (by simp)).1

/-- C4: each overload-collapse constructor hits the empty-candidate
fatal assertion exactly on the empty list: every empty-list call is the
fatal assertion outcome (never a node handed back), and no non-empty
call can reach that assertion. -/
theorem overload_collapse_empty_decls_assert :
    (∀ Loc, OverloadedDeclRefExpr.createWithCopy [] Loc = .error .assertEmptyDecls) ∧
    (∀ Base DotLoc MemberLoc,
      OverloadedMemberRefExpr.createWithCopy Base DotLoc [] MemberLoc =
        .error .assertEmptyDecls) ∧
    (∀ Base LBracketLoc Index RBracketLoc,
      OverloadedSubscriptExpr.createWithCopy Base [] LBracketLoc Index RBracketLoc =
        .error .assertEmptyDecls) ∧
    (∀ Decls Loc, Decls ≠ [] →
      OverloadedDeclRefExpr.createWithCopy Decls Loc ≠ .error .assertEmptyDecls) ∧
    (∀ Base DotLoc Decls MemberLoc, Decls ≠ [] →
      OverloadedMemberRefExpr.createWithCopy Base DotLoc Decls MemberLoc ≠
        .error .assertEmptyDecls) ∧
    (∀ Base Decls LBracketLoc Index RBracketLoc, Decls ≠ [] →
      OverloadedSubscriptExpr.createWithCopy Base Decls LBracketLoc Index RBracketLoc ≠
        .error .assertEmptyDecls) := by
  refine ⟨fun _ => rfl, fun _ _ _ => rfl, fun _ _ _ _ => rfl, ?_, ?_, ?_⟩
  · intro Decls Loc h
    match Decls with
    | [D] => simp [OverloadedDeclRefExpr.createWithCopy]
    | a :: b :: rest => simp [OverloadedDeclRefExpr.createWithCopy]
  · intro Base DotLoc Decls MemberLoc h
    match Decls with
    | [D] =>
      simp only [OverloadedMemberRefExpr.createWithCopy]
      split
      · split
        · simp
        · split
          · simp
          · split <;> simp
      · simp
    | a :: b :: rest => simp [OverloadedMemberRefExpr.createWithCopy]
  · intro Base Decls LBracketLoc Index RBracketLoc h
    match Decls with
    | [D] => simp [OverloadedSubscriptExpr.createWithCopy]
    | a :: b :: rest => simp [OverloadedSubscriptExpr.createWithCopy]

/-- Witness for C4: the empty-list call is the fatal assertion and a
concrete one-candidate call is not. -/
theorem overload_collapse_empty_decls_assert_witness :
    OverloadedDeclRefExpr.createWithCopy [] (.valid 0) = .error .assertEmptyDecls ∧
    OverloadedDeclRefExpr.createWithCopy [mkClosureVarDecl 0] (.valid 0) ≠
      .error .assertEmptyDecls :=
  ⟨overload_collapse_empty_decls_assert.1 (.valid 0),
   overload_collapse_empty_decls_assert.2.2.2.1 [mkClosureVarDecl 0] (.valid 0)
     (by simp)⟩

/-- C3: for a single-candidate member collapse with a non-null receiver
type: a metatype receiver or a non-instance-member candidate yields the
base-ignored dot-access node; otherwise a function candidate yields the
dot-syntax-call node with the receiver as argument, and a variable
candidate yields the direct member-access node binding receiver and
declaration. -/
theorem member_collapse_single_candidate_shapes
    (Base : Expr) (DotLoc MemberLoc : SourceLoc) (D : ValueDecl) (baseTy : Ty)
    (hb : Base.getType = some baseTy) :
    ((baseTy.isMetaTypeType = true ∨ D.isInstanceMember = false) →
      OverloadedMemberRefExpr.createWithCopy Base DotLoc [D] MemberLoc =
        .ok (mkDotSyntaxBaseIgnoredExpr Base DotLoc
              (.DeclRefExpr D MemberLoc D.typeOfReference))) ∧
    (D.isInstanceMember = true → baseTy.isMetaTypeType = false → D.kind = .func →
      OverloadedMemberRefExpr.createWithCopy Base DotLoc [D] MemberLoc =
        .ok (mkDotSyntaxCallExpr (.DeclRefExpr D MemberLoc D.typeOfReference)
              DotLoc Base)) ∧
    (D.isInstanceMember = true → baseTy.isMetaTypeType = false → D.kind = .var →
      OverloadedMemberRefExpr.createWithCopy Base DotLoc [D] MemberLoc =
        .ok (mkMemberRefExpr Base DotLoc D MemberLoc)) := by
  refine ⟨?_, ?_, ?_⟩
  · rintro (hm | hi)
    · cases hI : D.isInstanceMember <;>
        simp [OverloadedMemberRefExpr.createWithCopy, hb, hm, hI]
    · simp [OverloadedMemberRefExpr.createWithCopy, hi]
  · intro hi hm hk
    simp [OverloadedMemberRefExpr.createWithCopy, hb, hi, hm, hk]
  · intro hi hm hk
    simp [OverloadedMemberRefExpr.createWithCopy, hb, hi, hm, hk]

/-- Witness for C3: a concrete instance-member variable candidate with
a non-metatype receiver collapses to the direct member-access node. -/
theorem member_collapse_single_candidate_shapes_witness :
    OverloadedMemberRefExpr.createWithCopy (.ErrorExpr .invalid (some (.other 1)))
      (.valid 1)
      [{ name := "foo", kind := .var, typeOfReference := some (.other 7),
         isInstanceMember := true, elementType := none }] (.valid 2) =
      .ok (mkMemberRefExpr (.ErrorExpr .invalid (some (.other 1))) (.valid 1)
            { name := "foo", kind := .var, typeOfReference := some (.other 7),
              isInstanceMember := true, elementType := none } (.valid 2)) := by
  have h := (member_collapse_single_candidate_shapes
    (.ErrorExpr .invalid (some (.other 1))) (.valid 1) (.valid 2)
    { name := "foo", kind := .var, typeOfReference := some (.other 7),
      isInstanceMember := true, elementType := none } (.other 1) rfl).2.2
  exact h (by decide) (by decide) (by decide)

/-- C1 (amended): for a single-candidate list each of the three
overload-collapse constructors returns a node that is not
overload-set-shaped; the name-reference and member-reference results
carry the candidate's reference type, but the subscript result carries
no declaration and a null result type (the declaration is not passed to
the node). The member collapse additionally needs the receiver's type
to be non-null (when the candidate is an instance member it is
dereferenced) and a function or variable candidate. -/
theorem overload_collapse_single_candidate
    (D : ValueDecl) (Base Index : Expr)
    (Loc DotLoc MemberLoc LBracketLoc RBracketLoc : SourceLoc) (baseTy : Ty)
    (hb : Base.getType = some baseTy)
    (hk : D.kind = .func ∨ D.kind = .var) :
    (∃ e, OverloadedDeclRefExpr.createWithCopy [D] Loc = .ok e ∧
      e.isOverloadSetShaped = false ∧ e.getType = D.typeOfReference) ∧
    (∃ e, OverloadedMemberRefExpr.createWithCopy Base DotLoc [D] MemberLoc = .ok e ∧
      e.isOverloadSetShaped = false ∧ e.getType = D.typeOfReference) ∧
    (OverloadedSubscriptExpr.createWithCopy Base [D] LBracketLoc Index RBracketLoc =
      .ok (.SubscriptExpr Base LBracketLoc Index RBracketLoc none none) ∧
     (Expr.SubscriptExpr Base LBracketLoc Index RBracketLoc none
       none).isOverloadSetShaped = false) := by
  refine ⟨⟨.DeclRefExpr D Loc D.typeOfReference, rfl, rfl, rfl⟩, ?_, rfl, rfl⟩
  by_cases hI : D.isInstanceMember
  · by_cases hM : baseTy.isMetaTypeType = true
    · exact ⟨mkDotSyntaxBaseIgnoredExpr Base DotLoc
        (.DeclRefExpr D MemberLoc D.typeOfReference),
        by simp [OverloadedMemberRefExpr.createWithCopy, hb, hI, hM], rfl, rfl⟩
    · rcases hk with hk | hk
      · exact ⟨mkDotSyntaxCallExpr (.DeclRefExpr D MemberLoc D.typeOfReference)
          DotLoc Base,
          by simp [OverloadedMemberRefExpr.createWithCopy, hb, hI, hM, hk], rfl, rfl⟩
      · exact ⟨mkMemberRefExpr Base DotLoc D MemberLoc,
          by simp [OverloadedMemberRefExpr.createWithCopy, hb, hI, hM, hk], rfl, rfl⟩
  · exact ⟨mkDotSyntaxBaseIgnoredExpr Base DotLoc
      (.DeclRefExpr D MemberLoc D.typeOfReference),
      by simp [OverloadedMemberRefExpr.createWithCopy, hI], rfl, rfl⟩

/-- Witness for C1 (amended): a concrete single-candidate collapse at
each of the three constructors. -/
theorem overload_collapse_single_candidate_witness :
    (∃ e, OverloadedDeclRefExpr.createWithCopy
      [{ name := "foo", kind := .var, typeOfReference := some (.other 7),
         isInstanceMember := true, elementType := none }] (.valid 0) = .ok e ∧
      e.isOverloadSetShaped = false ∧ e.getType = some (.other 7)) ∧
    OverloadedSubscriptExpr.createWithCopy (.ErrorExpr .invalid (some (.other 1)))
      [{ name := "foo", kind := .var, typeOfReference := some (.other 7),
         isInstanceMember := true, elementType := none }]
      (.valid 1) (.ErrorExpr .invalid none) (.valid 2) =
      .ok (.SubscriptExpr (.ErrorExpr .invalid (some (.other 1))) (.valid 1)
            (.ErrorExpr .invalid none) (.valid 2) none none) := by
  have h := overload_collapse_single_candidate
    { name := "foo", kind := .var, typeOfReference := some (.other 7),
      isInstanceMember := true, elementType := none }
    (.ErrorExpr .invalid (some (.other 1))) (.ErrorExpr .invalid none)
    (.valid 0) .invalid .invalid (.valid 1) (.valid 2) (.other 1) rfl
    (Or.inr rfl)
  exact ⟨h.1, h.2.2.1⟩

/-- Counterexample for C1 as stated: a concrete single-candidate
subscript collapse returns a subscript node whose result type is null,
not the candidate's reference type. -/
theorem single_candidate_subscript_type_counterexample :
    OverloadedSubscriptExpr.createWithCopy (.ErrorExpr .invalid (some (.other 1)))
      [{ name := "sub", kind := .other, typeOfReference := some (.other 7),
         isInstanceMember := true, elementType := some (.other 8) }]
      (.valid 1) (.ErrorExpr .invalid none) (.valid 2) =
      .ok (.SubscriptExpr (.ErrorExpr .invalid (some (.other 1))) (.valid 1)
            (.ErrorExpr .invalid none) (.valid 2) none none) ∧
    (Expr.SubscriptExpr (.ErrorExpr .invalid (some (.other 1))) (.valid 1)
      (.ErrorExpr .invalid none) (.valid 2) none none).getType = none ∧
    ({ name := "sub", kind := .other, typeOfReference := some (.other 7),
       isInstanceMember := true, elementType := some (.other 8) } :
        ValueDecl).typeOfReference = some (.other 7) ∧
    (none : Option Ty) ≠ some (.other 7) := by
  exact ⟨rfl, rfl, rfl, by simp⟩

/-- C8 (amended): a tuple node with valid left and right delimiter
locations spans exactly the delimiters; with the delimiters invalid the
tuple must (fatal assertion) have exactly two non-null elements, and
spans from the first element's start location to the second element's
end location. -/
theorem tuple_getSourceRange_delimiters
    (lp rp : SourceLoc) (elements : List (Option Expr)) (ty : Option Ty) :
    (lp.isValid = true → rp.isValid = true →
      (Expr.TupleExpr lp elements rp ty).getSourceRange = some ⟨lp, rp⟩) ∧
    (∀ a b ra rb, lp.isValid = false → elements = [some a, some b] →
      a.getSourceRange = some ra → b.getSourceRange = some rb →
      (Expr.TupleExpr lp elements rp ty).getSourceRange =
        some ⟨ra.Start, rb.End⟩) := by
  constructor
  · intro h1 h2
    rw [Expr.getSourceRange.eq_def]
    dsimp only
    rw [if_pos h1, if_pos h2]
  · intro a b ra rb h1 h2 h3 h4
    subst h2
    rw [Expr.getSourceRange.eq_def]
    dsimp only
    rw [if_neg (by simp [h1]), h3, h4]

/-- Witness for C8 (amended): both delimiter cases at concrete tuple
nodes. -/
theorem tuple_getSourceRange_delimiters_witness :
    (Expr.TupleExpr (.valid 0) [] (.valid 9) none).getSourceRange =
      some ⟨.valid 0, .valid 9⟩ ∧
    (Expr.TupleExpr .invalid
      [some (.ErrorExpr (.valid 1) none), some (.ErrorExpr (.valid 2) none)]
      .invalid none).getSourceRange = some ⟨.valid 1, .valid 2⟩ :=
  ⟨(tuple_getSourceRange_delimiters (.valid 0) (.valid 9) [] none).1 rfl rfl,
   (tuple_getSourceRange_delimiters .invalid .invalid
     [some (.ErrorExpr (.valid 1) none), some (.ErrorExpr (.valid 2) none)] none).2
     (.ErrorExpr (.valid 1) none) (.ErrorExpr (.valid 2) none)
     ⟨.valid 1, .valid 1⟩ ⟨.valid 2, .valid 2⟩ rfl rfl rfl rfl⟩

/-- Counterexample for C8 as stated: a three-element tuple without
delimiters hits the fatal two-element assertion; its range is not the
union of the first child's start and the last child's end, which both
exist. -/
theorem tuple_range_three_elements_counterexample :
    (Expr.TupleExpr .invalid
      [some (.ErrorExpr (.valid 1) none), some (.ErrorExpr (.valid 2) none),
       some (.ErrorExpr (.valid 3) none)] .invalid none).getSourceRange = none ∧
    (Expr.ErrorExpr (.valid 1) none).getSourceRange =
      some ⟨.valid 1, .valid 1⟩ ∧
    (Expr.ErrorExpr (.valid 3) none).getSourceRange =
      some ⟨.valid 3, .valid 3⟩ ∧
    (none : Option SourceRange) ≠ some ⟨.valid 1, .valid 3⟩ :=
  ⟨rfl, rfl, rfl, by simp⟩

/-- If the requested index is below the current length, variable
generation leaves the list unchanged (the loop body never runs). -/
theorem generateVarDecls_stop (NumDecls : Nat) (Decls : List ValueDecl)
    (h : NumDecls < Decls.length) :
    ExplicitClosureExpr.GenerateVarDecls NumDecls Decls = Decls := by
  rw [ExplicitClosureExpr.GenerateVarDecls, if_neg (by omega)]

/-- Closed form of the generation loop: starting at or below the
requested index, it appends exactly the `$`-named variables for the
indices from the current length through the requested index. -/
theorem generateVarDecls_closed_form (NumDecls : Nat) (Decls : List ValueDecl)
    (h : Decls.length ≤ NumDecls) :
    ExplicitClosureExpr.GenerateVarDecls NumDecls Decls =
      Decls ++ (List.range (NumDecls + 1 - Decls.length)).map
        (fun j => mkClosureVarDecl (Decls.length + j)) := by
  rw [ExplicitClosureExpr.GenerateVarDecls, if_pos h]
  by_cases h2 : Decls.length + 1 ≤ NumDecls
  · rw [generateVarDecls_closed_form NumDecls
      (Decls ++ [mkClosureVarDecl Decls.length]) (by simpa using h2)]
    rw [List.append_assoc]
    congr 1
    have hr : NumDecls + 1 - Decls.length = (NumDecls - Decls.length) + 1 := by omega
    have hr2 : NumDecls + 1 - (Decls ++ [mkClosureVarDecl Decls.length]).length =
        NumDecls - Decls.length := by
      simp only [List.length_append, List.length_singleton]
      omega
    rw [hr, hr2, List.range_succ_eq_map]
    simp [List.map_map, Function.comp]
    intro a ha
    congr 1
    omega
  · have hlen : Decls.length = NumDecls := by omega
    rw [generateVarDecls_stop NumDecls (Decls ++ [mkClosureVarDecl Decls.length])
      (by simp; omega)]
    have : NumDecls + 1 - Decls.length = 1 := by omega
    rw [this]
    simp [List.range_succ]
termination_by NumDecls + 1 - Decls.length
decreasing_by simp; omega

/-- C10: if the list already has more than `NumDecls` entries it is
returned unchanged; otherwise variables are appended until it has
exactly `NumDecls + 1` entries, the existing prefix is preserved, and
the entry at each appended index `i` is named `$` followed by the
decimal rendering of `i`. -/
theorem generateVarDecls_spec (NumDecls : Nat) (Decls : List ValueDecl) :
    (NumDecls < Decls.length →
      ExplicitClosureExpr.GenerateVarDecls NumDecls Decls = Decls) ∧
    (Decls.length ≤ NumDecls →
      (ExplicitClosureExpr.GenerateVarDecls NumDecls Decls).length = NumDecls + 1 ∧
      (ExplicitClosureExpr.GenerateVarDecls NumDecls Decls).take Decls.length = Decls ∧
      (∀ i, Decls.length ≤ i → i ≤ NumDecls →
        ((ExplicitClosureExpr.GenerateVarDecls NumDecls Decls)[i]?).map ValueDecl.name =
          some ("$" ++ toString i))) := by
  constructor
  · exact generateVarDecls_stop NumDecls Decls
  · intro h
    rw [generateVarDecls_closed_form NumDecls Decls h]
    refine ⟨by simp; omega, by simp [List.take_left], ?_⟩
    intro i hi1 hi2
    rw [List.getElem?_append_right (show Decls.length ≤ i by omega)]
    rw [List.getElem?_map]
    rw [List.getElem?_range
      (show i - Decls.length < NumDecls + 1 - Decls.length by omega)]
    have hi3 : Decls.length + (i - Decls.length) = i := by omega
    simp only [Option.map_some']
    rw [hi3]
    simp [mkClosureVarDecl]

/-- Witness for C10: both branches at concrete inputs — a list already
long enough is unchanged, and generation from the empty list for
requested index 2 yields three entries with `$1` at index 1. -/
theorem generateVarDecls_spec_witness :
    ExplicitClosureExpr.GenerateVarDecls 1
      [mkClosureVarDecl 0, mkClosureVarDecl 1, mkClosureVarDecl 2] =
      [mkClosureVarDecl 0, mkClosureVarDecl 1, mkClosureVarDecl 2] ∧
    (ExplicitClosureExpr.GenerateVarDecls 2 []).length = 3 ∧
    ((ExplicitClosureExpr.GenerateVarDecls 2 [])[1]?).map ValueDecl.name =
      some "$1" := by
  refine ⟨(generateVarDecls_spec 1 _).1 (by simp),
    ((generateVarDecls_spec 2 []).2 (by simp)).1, ?_⟩
  have h := ((generateVarDecls_spec 2 []).2 (by simp)).2.2 1 (by simp) (by omega)
  simpa using h
